import Mathlib

/-! Game-Review-Site: authentication, session and shared-state handlers of `src/index.js`.

A shallow embedding of the request handlers and passport strategies of
`src/index.js`.  Asynchronous callbacks are modelled by the value they are
eventually invoked with (`Outcome`); database access is explicit state
passing over `Db`.
-/

namespace GameReview

/-! ## Data model -/

/-- A row of the `users` table, as returned by `SELECT * FROM users`. -/
structure UserRow where
  id : Nat
  email : String
  password : String
deriving DecidableEq, Repr

/-- The JavaScript values that flow through the authentication callbacks and the
session payload. -/
inductive Value where
  | undefined
  | bool (b : Bool)
  | num (n : Nat)
  | row (r : UserRow)
deriving DecidableEq, Repr

/-- JavaScript truthiness of a `Value`. -/
def Value.truthy : Value → Bool
  | .undefined => false
  | .bool b => b
  | .num n => n != 0
  | .row _ => true

/-- Modelled from the spec: the declaration of the `users` table is not part of
`src/index.js`.  The spec (and the comment at line 248, "all emails are unique and
not null in db") gives it a server-generated unique `id`, a unique `email` and a
`password` column; `nextId` is the next value of the id sequence. -/
structure Db where
  users : List UserRow
  nextId : Nat
deriving DecidableEq, Repr

/-- An empty `users` table whose id sequence starts at 1. -/
def Db.empty : Db := ⟨[], 1⟩

/-- The uniqueness constraint on `users.email`. -/
def Db.emailsUnique (db : Db) : Prop := (db.users.map (fun r => r.email)).Nodup

instance (db : Db) : Decidable db.emailsUnique := by
  unfold Db.emailsUnique; infer_instance

/-- The query `SELECT * FROM users WHERE email = $1`; the result is `result.rows`. -/
def selectUsersByEmail (db : Db) (email : String) : List UserRow :=
  db.users.filter (fun r => decide (r.email = email))

/-- The query `INSERT INTO users (email, password) VALUES ($1, $2)`, with or
without `RETURNING *`.  The query fails when the email is already present
(uniqueness constraint); otherwise the row is appended with a fresh id, and
`rows` holds the new row only when `RETURNING *` was written. -/
def insertUser (db : Db) (email password : String) (returning : Bool) :
    Except String (Db × List UserRow) :=
  if (selectUsersByEmail db email).isEmpty then
    let r : UserRow := ⟨db.nextId, email, password⟩
    .ok (⟨db.users ++ [r], db.nextId + 1⟩, if returning then [r] else [])
  else
    .error "duplicate key value violates unique constraint"

/-- The expression `rows[0]` on a query result: `undefined` on an empty array. -/
def rows0 (rows : List UserRow) : Value :=
  match rows with
  | [] => .undefined
  | r :: _ => .row r

/-- What becomes of a node-style callback `cb`: it is called with `(err, user)`,
or the function throws before calling it, or it returns without ever calling it. -/
inductive Outcome where
  | called (err : Option String) (user : Value)
  | threw (msg : String)
  | silent
deriving DecidableEq, Repr

/-- The password hasher (`bcrypt`): `hash(password, saltRounds, cb)` and
`compare(password, hash, cb)` each call back with an error or a result. -/
structure Hasher where
  hash : String → Nat → Except String String
  compare : String → String → Except String Bool

/-- The constant `saltRounds` (line 32). -/
def saltRounds : Nat := 10

/-! ## Passport strategies (lines 244-302) -/

/-- The local strategy's `verify(username, password, cb)` (lines 247-269). -/
def verify (bcrypt : Hasher) (db : Db) (username password : String) : Outcome :=
  let result := selectUsersByEmail db username
  match rows0 result with
  | .row newResult =>
    let storedHashedPassword := newResult.password
    match bcrypt.compare password storedHashedPassword with
    | .error _ => .silent
    | .ok true => .called none (.row newResult)
    | .ok false => .called none (.bool false)
  | _ => .threw "TypeError: Cannot read properties of undefined (reading 'password')"

/-- A federated profile as delivered by the identity provider. -/
structure Profile where
  email : String
deriving DecidableEq, Repr

/-- The Google strategy's verify callback (lines 282-300): the database after the
call and what `cb` received. -/
def googleVerify (db : Db) (profile : Profile) : Db × Outcome :=
  let result := selectUsersByEmail db profile.email
  if result.length = 0 then
    match insertUser db profile.email "google" false with
    | .ok (db', newUserRows) => (db', .called none (rows0 newUserRows))
    | .error err => (db, .called (some err) .undefined)
  else
    (db, .called none (rows0 result))

/-! ## Session serialisation (lines 306-313) -/

/-- The function `passport.serializeUser((user, cb) => cb(null, user.id))`. -/
def serializeUser (user : Value) : Outcome :=
  match user with
  | .row r => .called none (.num r.id)
  | .undefined => .threw "TypeError: Cannot read properties of undefined (reading 'id')"
  | _ => .called none .undefined

/-- The function `passport.deserializeUser((user, cb) => cb(null, user))`. -/
def deserializeUser (user : Value) : Outcome :=
  .called none user

/-- The passport part of a session, `req.session.passport.user`; `none` until a
login has stored a payload. -/
abbrev Session := Option Value

/-- The call `req.login(user, done)` (line 200).  It belongs to the third-party
passport library, whose contract is followed here: the user is run through
`serializeUser`, and the result is written to the session when it is a payload
(truthy, or the number 0); otherwise the session is left as it was and `done`
receives an error. -/
def reqLogin (sess : Session) (user : Value) : Session × Option String :=
  match serializeUser user with
  | .called none obj =>
    if obj.truthy || obj == .num 0 then (some obj, none)
    else (sess, some "Failed to serialize user into session")
  | .called (some e) _ => (sess, some e)
  | .threw e => (sess, some e)
  | .silent => (sess, none)

/-- The middleware `passport.session()` (line 75), again third-party.  Without a
payload in the session nothing is resolved.  A payload (truthy, or the number 0) is
handed to `deserializeUser`: a truthy result is the resolved user, `false` means the
user is gone and nothing is resolved, and any other result ends the request with
the error "Failed to deserialize user out of session". -/
def sessionStrategy (sess : Session) : Except String Value :=
  match sess with
  | none => .ok .undefined
  | some su =>
    if su.truthy || su == .num 0 then
      match deserializeUser su with
      | .called none user =>
        if user.truthy then .ok user
        else if user == .bool false then .ok .undefined
        else .error "Failed to deserialize user out of session"
      | .called (some e) _ => .error e
      | .threw e => .error e
      | .silent => .error "deserializeUser never called back"
    else .ok .undefined

/-- The value of `req.user` that `passport.session()` leaves on a request carrying
the given session: the resolved user, and `undefined` when nothing was resolved or
the middleware ended in an error. -/
def passportSession (sess : Session) : Value :=
  match sessionStrategy sess with
  | .ok user => user
  | .error _ => .undefined

/-- The method `req.isAuthenticated()` (line 212), provided by passport: `req.user`
is truthy. -/
def isAuthenticated (reqUser : Value) : Bool := reqUser.truthy

/-! ## Route handlers -/

/-- What a handler sends back. -/
inductive Response where
  | render (view : String)
  | redirect (path : String)
  | serverError (msg : String)
  | unanswered
deriving DecidableEq, Repr

/-- The observable steps of the `/register` handler, in the order they happen. -/
inductive Event where
  | hashComputed (hash : String)
  | hashFailed
  | userInserted (row : UserRow)
  | insertRejected (msg : String)
  | sessionEstablished (user : Value) (payload : Value)
  | loginFailed (msg : String)
  | responded (r : Response)
deriving DecidableEq, Repr

/-- The state a handler leaves behind and what it did. -/
structure HandlerResult where
  db : Db
  session : Session
  response : Response
  trace : List Event
deriving DecidableEq, Repr

/-- The handler `app.post("/register")` (lines 180-206). -/
def register (bcrypt : Hasher) (db : Db) (sess : Session) (email password : String) :
    HandlerResult :=
  match bcrypt.hash password saltRounds with
  | .error _ => ⟨db, sess, .unanswered, [.hashFailed]⟩
  | .ok hash =>
    match insertUser db email hash true with
    | .error e => ⟨db, sess, .unanswered, [.hashComputed hash, .insertRejected e]⟩
    | .ok (db', rows) =>
      let user := rows0 rows
      let inserted := rows.map Event.userInserted
      match reqLogin sess user with
      | (sess', none) =>
        ⟨db', sess', .redirect "/secrets",
          [.hashComputed hash] ++ inserted ++
            [.sessionEstablished user ((sess'.getD .undefined)), .responded (.redirect "/secrets")]⟩
      | (sess', some e) =>
        ⟨db', sess', .redirect "/secrets",
          [.hashComputed hash] ++ inserted ++ [.loginFailed e, .responded (.redirect "/secrets")]⟩

/-- The handler `app.get("/secrets")` (lines 211-217), given `req.user`. -/
def getSecrets (reqUser : Value) : Response :=
  if isAuthenticated reqUser then .render "secrets.ejs" else .redirect "/login"

/-- A `GET /secrets` request carrying a session: `passport.session()` runs first;
when it ends in an error the request is answered by the error response and the
handler does not run, otherwise the handler runs with the resolved `req.user`. -/
def handleGetSecrets (sess : Session) : Response :=
  match sessionStrategy sess with
  | .error e => .serverError e
  | .ok reqUser => getSecrets reqUser

/-! ## Process-wide state: edit target and sort order (lines 79-154) -/

/-- A row of the `games` table, with the columns named by the INSERT of line 116. -/
structure GameRow where
  game_id : Nat
  title : String
  completed : String
  rating : String
  notes : String
  released : String
deriving DecidableEq, Repr

/-- The state of the server process shared by every request: the `games` table
and the two module-level variables `activeEdit` and `sortMethod`. -/
structure App where
  games : List GameRow
  activeEdit : Nat
  sortMethod : String
deriving DecidableEq, Repr

/-- The process at start-up: `activeEdit = 0`, `sortMethod = "released"`. -/
def App.start (games : List GameRow) : App := ⟨games, 0, "released"⟩

/-- The statement text of line 87, with `sortMethod` spliced in. -/
def orderByText (sortMethod : String) : String :=
  "SELECT * FROM games ORDER BY " ++ sortMethod ++ " DESC"

/-- The statement text of line 127, with the posted id spliced in. -/
def selectByIdText (edit : Nat) : String :=
  "SELECT * FROM games WHERE game_id=" ++ toString edit

/-- The statement text of line 135, with the three form fields and `activeEdit`
spliced in. -/
def updateText (completed rating review : String) (activeEdit : Nat) : String :=
  "UPDATE games SET completed='" ++ completed ++ "', rating='" ++ rating ++ "', notes='" ++
    review ++ "' WHERE game_id=" ++ toString activeEdit

/-- The string `ids` built by the loop of lines 90-93. -/
def catalogIds (userInfo : List GameRow) : String :=
  userInfo.foldl (fun ids g => ids ++ "&id=" ++ toString g.game_id) ""

/-- The two services the game handlers call with text they have spliced together.
`query` is the database: given a statement text and the `games` table it fails, or
yields the result rows and the table afterwards; what a text means is up to the
database.  `catalog` is the catalog API called with the `ids` suffix of the URL. -/
structure Services where
  query : String → List GameRow → Except String (List GameRow × List GameRow)
  catalog : String → Except String String

/-- The requests that read or write the shared variables. -/
inductive Request where
  | getHome
  | postEdit (edit : Nat)
  | postEditGame (completed rating review : String)
  | postSort (sort : String)
deriving DecidableEq, Repr

/-- What one request leaves behind: the process state, the statement texts issued,
the response, and the `userlog` handed to the view (the client's `req.user`). -/
structure Reply where
  app : App
  issued : List String
  response : Response
  userlog : Value
deriving DecidableEq, Repr

/-- The handlers `app.get("/")`, `app.post("/edit")`, `app.post("/edit-game")` and
`app.post("/sort")`, run for a client whose `req.user` is `client`.  When a
statement or the catalog call fails, the handler's promise is rejected and the
handler sends no response (`unanswered`).  The statement of `/edit` splices a number, so it reads as the
lookup by that id; the statements of `/` and `/edit-game` splice strings and are
handed to the database as text. -/
def handle (sv : Services) (app : App) (client : Value) (req : Request) : Reply :=
  match req with
  | .getHome =>
    match sv.query (orderByText app.sortMethod) app.games with
    | .error _ => ⟨app, [orderByText app.sortMethod], .unanswered, .undefined⟩
    | .ok (userInfo, games) =>
      match sv.catalog (catalogIds userInfo) with
      | .error _ =>
        ⟨{ app with games := games }, [orderByText app.sortMethod], .unanswered, .undefined⟩
      | .ok _ =>
        ⟨{ app with games := games }, [orderByText app.sortMethod], .render "index.ejs", client⟩
  | .postEdit edit =>
    let rows := app.games.filter (fun g => decide (g.game_id = edit))
    match rows with
    | [] => ⟨app, [selectByIdText edit], .unanswered, .undefined⟩
    | row :: _ =>
      ⟨{ app with activeEdit := row.game_id }, [selectByIdText edit], .render "edit.ejs",
        .undefined⟩
  | .postEditGame completed rating review =>
    match sv.query (updateText completed rating review app.activeEdit) app.games with
    | .error _ =>
      ⟨app, [updateText completed rating review app.activeEdit], .unanswered, .undefined⟩
    | .ok (_, games) =>
      ⟨{ app with games := games }, [updateText completed rating review app.activeEdit],
        .redirect "/", .undefined⟩
  | .postSort sort =>
    ⟨{ app with sortMethod := sort }, [], .redirect "/", .undefined⟩

/-! ## Reading a statement text

The part of the database's lexical rules that decides where spliced text ends up:
a string literal runs from one single quote to the next, and two dashes outside a
literal start a comment that runs to the end of the line. -/

/-- The single quote, which opens and closes a string literal. -/
def quoteChar : Char := Char.ofNat 39

/-- The dash; two of them in code start a comment. -/
def dashChar : Char := Char.ofNat 45

/-- The backslash, an escape inside literals under the non-standard string setting. -/
def backslashChar : Char := Char.ofNat 92

/-- The line feed, which ends a comment. -/
def newlineChar : Char := Char.ofNat 10

/-- Where the lexer is: in code, inside a string literal, or inside a comment. -/
inductive LexMode where
  | code
  | literal
  | comment
deriving DecidableEq, Repr

/-- The code of a statement text: the characters outside string literals and
comments, the quotes of the literals included (each literal is left empty). -/
def sqlCode : LexMode → List Char → List Char
  | _, [] => []
  | .code, c :: rest =>
    if c = quoteChar then c :: sqlCode .literal rest
    else if c = dashChar ∧ rest.head? = some dashChar then sqlCode .comment rest
    else c :: sqlCode .code rest
  | .literal, c :: rest =>
    if c = quoteChar then c :: sqlCode .code rest else sqlCode .literal rest
  | .comment, c :: rest =>
    if c = newlineChar then sqlCode .code rest else sqlCode .comment rest

/-- A form value that stays inside the string literal it is spliced into: it holds
neither a single quote nor a backslash. -/
def plainField (s : String) : Prop := quoteChar ∉ s.data ∧ backslashChar ∉ s.data

instance (s : String) : Decidable (plainField s) := by
  unfold plainField; infer_instance

/-- The value of a decimal numeral read from the left, continuing from `start`. -/
def decodeDigits (l : List Char) (start : Nat) : Nat :=
  l.foldl (fun a c => 10 * a + (c.toNat - 48)) start

/-! ## Sample data -/

/-- A hasher that succeeds: the hash is the password behind a fixed marker. -/
def demoHasher : Hasher where
  hash := fun password _ => .ok ("$2b$10$" ++ password)
  compare := fun password stored => .ok (decide (stored = "$2b$10$" ++ password))

/-- A hasher whose `hash` reports an error. -/
def brokenHasher : Hasher where
  hash := fun _ _ => .error "hash failure"
  compare := fun _ _ => .error "compare failure"

/-- A stored local account. -/
def alice : UserRow := ⟨1, "a@example.com", "$2b$10$pw123"⟩

/-- A database holding only `alice`. -/
def aliceDb : Db := ⟨[alice], 2⟩

/-- Services that accept every statement and leave the table as it is. -/
def demoServices : Services where
  query := fun _ games => .ok (games, games)
  catalog := fun _ => .ok ""

/-- Two stored games. -/
def demoGames : List GameRow :=
  [⟨11, "Alpha", "yes", "5", "fine", "1999"⟩, ⟨22, "Beta", "no", "3", "meh", "2004"⟩]

/-! ## Lemmas on the `users` table -/

theorem filter_email_eq_singleton (l : List UserRow)
    (hu : (l.map (fun r => r.email)).Nodup) (r : UserRow) (hr : r ∈ l) :
    l.filter (fun x => decide (x.email = r.email)) = [r] := by
  induction l with
  | nil => simp at hr
  | cons a t ih =>
    simp only [List.map_cons, List.nodup_cons, List.mem_map, not_exists, not_and] at hu
    rcases List.mem_cons.mp hr with rfl | hrt
    · have hnone : t.filter (fun x => decide (x.email = r.email)) = [] := by
        rw [List.filter_eq_nil_iff]
        intro x hx
        simpa using hu.1 x hx
      simp [List.filter_cons, hnone]
    · have hne : a.email ≠ r.email := fun h => hu.1 r hrt h.symm
      simp [List.filter_cons, hne, ih hu.2 hrt]

theorem select_of_mem (db : Db) (hu : db.emailsUnique) (r : UserRow) (hr : r ∈ db.users) :
    selectUsersByEmail db r.email = [r] :=
  filter_email_eq_singleton db.users hu r hr

theorem select_mem (db : Db) (email : String) (r : UserRow)
    (hr : r ∈ selectUsersByEmail db email) : r ∈ db.users ∧ r.email = email := by
  simpa [selectUsersByEmail] using hr

theorem select_after_append (db : Db) (email password : String)
    (hfresh : selectUsersByEmail db email = []) (n : Nat) :
    selectUsersByEmail ⟨db.users ++ [⟨db.nextId, email, password⟩], n⟩ email =
      [⟨db.nextId, email, password⟩] := by
  simp only [selectUsersByEmail] at hfresh ⊢
  simp [List.filter_append, hfresh, List.filter_cons]

theorem insertUser_fresh (db : Db) (email password : String) (returning : Bool)
    (hfresh : selectUsersByEmail db email = []) :
    insertUser db email password returning =
      .ok (⟨db.users ++ [⟨db.nextId, email, password⟩], db.nextId + 1⟩,
        if returning then [⟨db.nextId, email, password⟩] else []) := by
  simp [insertUser, hfresh]

theorem reqLogin_row (sess : Session) (r : UserRow) :
    reqLogin sess (.row r) = (some (.num r.id), none) := by
  by_cases h : r.id = 0 <;> simp [reqLogin, serializeUser, Value.truthy, h]

theorem register_fresh (bcrypt : Hasher) (db : Db) (sess : Session) (email password hash : String)
    (hh : bcrypt.hash password saltRounds = .ok hash)
    (hfresh : selectUsersByEmail db email = []) :
    register bcrypt db sess email password =
      ⟨⟨db.users ++ [⟨db.nextId, email, hash⟩], db.nextId + 1⟩, some (.num db.nextId),
        .redirect "/secrets",
        [.hashComputed hash, .userInserted ⟨db.nextId, email, hash⟩,
          .sessionEstablished (.row ⟨db.nextId, email, hash⟩) (.num db.nextId),
          .responded (.redirect "/secrets")]⟩ := by
  simp [register, hh, insertUser_fresh, hfresh, rows0, reqLogin_row]

/-! ## Lemmas on the shared variables -/

theorem handle_postEdit_stored (sv : Services) (app : App) (client : Value) (g : Nat)
    (hg : ∃ x ∈ app.games, x.game_id = g) :
    (handle sv app client (.postEdit g)).app = { app with activeEdit := g } := by
  obtain ⟨x, hx, hxg⟩ := hg
  cases hf : app.games.filter (fun y => decide (y.game_id = g)) with
  | nil =>
    rw [List.filter_eq_nil_iff] at hf
    have := hf x hx
    simp [hxg] at this
  | cons row rest =>
    have hrow : row ∈ app.games.filter (fun y => decide (y.game_id = g)) := by simp [hf]
    have hid : row.game_id = g := by simpa using (List.mem_filter.mp hrow).2
    simp [handle, hf, hid]

theorem handle_postEditGame_issued (sv : Services) (app : App) (client : Value)
    (completed rating review : String) :
    (handle sv app client (.postEditGame completed rating review)).issued =
      [updateText completed rating review app.activeEdit] := by
  simp only [handle]
  split <;> rfl

theorem handle_getHome_issued (sv : Services) (app : App) (client : Value) :
    (handle sv app client .getHome).issued = [orderByText app.sortMethod] := by
  simp only [handle]
  split
  · rfl
  · split <;> rfl

/-! ## Lemmas on statement texts -/

theorem sqlCode_literal_skip (f rest : List Char) (h : quoteChar ∉ f) :
    sqlCode .literal (f ++ quoteChar :: rest) = quoteChar :: sqlCode .code rest := by
  induction f with
  | nil => simp [sqlCode]
  | cons a t ih =>
    simp only [List.mem_cons, not_or] at h
    have ha : a ≠ quoteChar := fun e => h.1 e.symm
    simp [sqlCode, ha, ih h.2]

theorem sqlCode_code_plain (l rest : List Char)
    (h : ∀ c ∈ l, c ≠ quoteChar ∧ c ≠ dashChar) :
    sqlCode .code (l ++ rest) = l ++ sqlCode .code rest := by
  induction l with
  | nil => simp
  | cons a t ih =>
    have ha := h a (by simp)
    have ht : ∀ c ∈ t, c ≠ quoteChar ∧ c ≠ dashChar := fun c hc => h c (by simp [hc])
    simp [sqlCode, ha.1, ha.2, ih ht]

theorem digitChar_plain (d : Nat) (hd : d < 10) :
    Nat.digitChar d ≠ quoteChar ∧ Nat.digitChar d ≠ dashChar ∧
      (Nat.digitChar d).toNat - 48 = d := by
  interval_cases d <;> decide

theorem toDigitsCore_plain (f n : Nat) (ds : List Char)
    (hds : ∀ c ∈ ds, c ≠ quoteChar ∧ c ≠ dashChar) :
    ∀ c ∈ Nat.toDigitsCore 10 f n ds, c ≠ quoteChar ∧ c ≠ dashChar := by
  induction f generalizing n ds with
  | zero => simpa [Nat.toDigitsCore] using hds
  | succ f ih =>
    have hd := digitChar_plain (n % 10) (Nat.mod_lt _ (by decide))
    have hcons : ∀ c ∈ Nat.digitChar (n % 10) :: ds, c ≠ quoteChar ∧ c ≠ dashChar := by
      intro c hc
      rcases List.mem_cons.mp hc with rfl | hc
      · exact ⟨hd.1, hd.2.1⟩
      · exact hds c hc
    simp only [Nat.toDigitsCore]
    split
    · exact hcons
    · exact ih _ _ hcons

theorem toString_plain (n : Nat) : ∀ c ∈ (toString n).data, c ≠ quoteChar ∧ c ≠ dashChar := by
  have : (toString n).data = Nat.toDigitsCore 10 (n + 1) n [] := rfl
  rw [this]
  exact toDigitsCore_plain _ _ _ (by simp)

theorem decode_toDigitsCore (f n : Nat) (ds : List Char) (hf : n < f) :
    decodeDigits (Nat.toDigitsCore 10 f n ds) 0 = decodeDigits ds n := by
  induction f generalizing n ds with
  | zero => omega
  | succ f ih =>
    have hd := (digitChar_plain (n % 10) (Nat.mod_lt _ (by decide))).2.2
    simp only [Nat.toDigitsCore]
    split
    · next h0 =>
      simp only [decodeDigits, List.foldl_cons, hd]
      congr 1
      omega
    · next h0 =>
      rw [ih (n / 10) _ (by omega)]
      simp only [decodeDigits, List.foldl_cons, hd]
      congr 1
      omega

theorem toString_nat_injective (a b : Nat) (h : toString a = toString b) : a = b := by
  have ha : (toString a).data = Nat.toDigitsCore 10 (a + 1) a [] := rfl
  have hb : (toString b).data = Nat.toDigitsCore 10 (b + 1) b [] := rfl
  have e : Nat.toDigitsCore 10 (a + 1) a [] = Nat.toDigitsCore 10 (b + 1) b [] := by
    rw [← ha, ← hb, h]
  have da := decode_toDigitsCore (a + 1) a [] (by omega)
  have db := decode_toDigitsCore (b + 1) b [] (by omega)
  rw [e, db] at da
  simpa [decodeDigits] using da.symm

theorem updateText_data (c r n : String) (g : Nat) :
    (updateText c r n g).data =
      "UPDATE games SET completed=".data ++ quoteChar :: (c.data ++ quoteChar ::
        (", rating=".data ++ quoteChar :: (r.data ++ quoteChar ::
          (", notes=".data ++ quoteChar :: (n.data ++ quoteChar ::
            (" WHERE game_id=".data ++ (toString g).data)))))) := by
  have hq : quoteChar = Char.ofNat 39 := rfl
  simp only [updateText, String.data_append]
  simp [hq]

theorem sqlCode_updateText (c r n : String) (g : Nat)
    (hc : plainField c) (hr : plainField r) (hn : plainField n) :
    sqlCode .code (updateText c r n g).data =
      ("UPDATE games SET completed='', rating='', notes='' WHERE game_id=" ++ toString g).data := by
  rw [updateText_data]
  rw [sqlCode_code_plain _ _ (by decide)]
  simp only [sqlCode, if_true]
  rw [sqlCode_literal_skip _ _ hc.1, sqlCode_code_plain _ _ (by decide)]
  simp only [sqlCode, if_true]
  rw [sqlCode_literal_skip _ _ hr.1, sqlCode_code_plain _ _ (by decide)]
  simp only [sqlCode, if_true]
  rw [sqlCode_literal_skip _ _ hn.1, sqlCode_code_plain _ _ (by decide)]
  have hg := sqlCode_code_plain (toString g).data [] (toString_plain g)
  simp only [List.append_nil, sqlCode] at hg
  rw [hg]
  have hq : quoteChar = Char.ofNat 39 := rfl
  simp [String.data_append, hq]

theorem updateText_id_injective (c r n : String) (a b : Nat)
    (h : updateText c r n a = updateText c r n b) : a = b := by
  have hd := congrArg String.data h
  rw [updateText_data, updateText_data] at hd
  simp only [List.append_cancel_left_eq, List.cons.injEq, true_and] at hd
  exact toString_nat_injective a b (String.ext hd)

/-- With a quote in the review field the code of the statement changes: the
condition on `activeEdit` (22) ends up in a comment and the statement names 11. -/
theorem updateText_quote_retargets :
    sqlCode .code (updateText "yes" "4" "x' WHERE game_id=11 --" 22).data =
      "UPDATE games SET completed='', rating='', notes='' WHERE game_id=11 ".data := by
  decide

/-! ## Claims -/

/-- C1: registering `(email, password)` once through `/register` into a database
with no user of that email, then running the local strategy's `verify` with the same
pair, calls back with no error and the stored user row, whose email is the one given
(the hasher's `compare(password, hash(password))` being true). -/
theorem register_then_verify (bcrypt : Hasher) (db : Db) (sess : Session)
    (email password hash : String)
    (hfresh : selectUsersByEmail db email = [])
    (hh : bcrypt.hash password saltRounds = .ok hash)
    (hc : bcrypt.compare password hash = .ok true) :
    ∃ user : UserRow,
      verify bcrypt (register bcrypt db sess email password).db email password =
        .called none (.row user) ∧
      user ∈ (register bcrypt db sess email password).db.users ∧
      user.email = email ∧ user.password = hash := by
  refine ⟨⟨db.nextId, email, hash⟩, ?_, ?_, rfl, rfl⟩
  · rw [register_fresh bcrypt db sess email password hash hh hfresh]
    simp [verify, select_after_append db email hash hfresh, rows0, hc]
  · rw [register_fresh bcrypt db sess email password hash hh hfresh]
    simp

theorem register_then_verify_witness :
    ∃ user : UserRow,
      verify demoHasher (register demoHasher Db.empty none "a@example.com" "pw123").db
        "a@example.com" "pw123" = .called none (.row user) ∧
      user ∈ (register demoHasher Db.empty none "a@example.com" "pw123").db.users ∧
      user.email = "a@example.com" ∧ user.password = "$2b$10$pw123" :=
  register_then_verify demoHasher Db.empty none "a@example.com" "pw123" "$2b$10$pw123"
    (by decide) (by rfl) (by simp [demoHasher])

/-- C2 (failing input): with no row for the email, the local strategy's `verify`
throws on `newResult.password` and never calls back, whatever the hasher and the
password; it does not produce the authentication-failure result `cb(null, false)`. -/
theorem verify_unknown_email_throws (bcrypt : Hasher) (password : String) :
    verify bcrypt Db.empty "nobody@example.com" password =
        .threw "TypeError: Cannot read properties of undefined (reading 'password')" ∧
      verify bcrypt Db.empty "nobody@example.com" password ≠ .called none (.bool false) := by
  constructor
  · rfl
  · intro h
    cases h

/-- C3 (failing input): for a profile whose email is new, the Google strategy inserts
the row with the sentinel password "google" but, the INSERT having no RETURNING
clause, calls back with `undefined` instead of the created row. -/
theorem googleVerify_new_email_undefined :
    googleVerify Db.empty ⟨"new@example.com"⟩ =
      (⟨[⟨1, "new@example.com", "google"⟩], 2⟩, .called none .undefined) := by
  decide

/-- C4: on a database whose emails are unique, two successive runs of the Google
strategy's verify callback with the same profile leave exactly one row for the
profile's email: the first run adds at most one row, the second adds none and calls
back with the row stored for that email. -/
theorem googleVerify_twice (db : Db) (profile : Profile) (hu : db.emailsUnique) :
    ((googleVerify db profile).1.users = db.users ∨
        ∃ r : UserRow, (googleVerify db profile).1.users = db.users ++ [r]) ∧
      (googleVerify (googleVerify db profile).1 profile).1 = (googleVerify db profile).1 ∧
      ∃ row : UserRow,
        selectUsersByEmail (googleVerify (googleVerify db profile).1 profile).1 profile.email =
            [row] ∧
          (googleVerify (googleVerify db profile).1 profile).2 = .called none (.row row) := by
  cases hsel : selectUsersByEmail db profile.email with
  | nil =>
    have h1 : googleVerify db profile =
        (⟨db.users ++ [⟨db.nextId, profile.email, "google"⟩], db.nextId + 1⟩,
          .called none .undefined) := by
      simp [googleVerify, hsel, insertUser_fresh, rows0]
    have hs := select_after_append db profile.email "google" hsel (db.nextId + 1)
    have h2 : googleVerify
        ⟨db.users ++ [⟨db.nextId, profile.email, "google"⟩], db.nextId + 1⟩ profile =
        (⟨db.users ++ [⟨db.nextId, profile.email, "google"⟩], db.nextId + 1⟩,
          .called none (.row ⟨db.nextId, profile.email, "google"⟩)) := by
      simp [googleVerify, hs, rows0]
    refine ⟨Or.inr ⟨⟨db.nextId, profile.email, "google"⟩, ?_⟩, ?_,
      ⟨db.nextId, profile.email, "google"⟩, ?_, ?_⟩ <;> simp [h1, h2, hs]
  | cons a t =>
    have ha : a ∈ selectUsersByEmail db profile.email := by simp [hsel]
    obtain ⟨hmem, hemail⟩ := select_mem db profile.email a ha
    have hone : selectUsersByEmail db profile.email = [a] := by
      have := select_of_mem db hu a hmem
      rwa [hemail] at this
    have h1 : googleVerify db profile = (db, .called none (.row a)) := by
      simp [googleVerify, hone, rows0]
    refine ⟨Or.inl ?_, ?_, a, ?_, ?_⟩ <;> simp [h1, hone]

theorem googleVerify_twice_witness :
    ((googleVerify Db.empty ⟨"new@example.com"⟩).1.users = Db.empty.users ∨
        ∃ r : UserRow,
          (googleVerify Db.empty ⟨"new@example.com"⟩).1.users = Db.empty.users ++ [r]) ∧
      (googleVerify (googleVerify Db.empty ⟨"new@example.com"⟩).1 ⟨"new@example.com"⟩).1 =
        (googleVerify Db.empty ⟨"new@example.com"⟩).1 ∧
      ∃ row : UserRow,
        selectUsersByEmail
            (googleVerify (googleVerify Db.empty ⟨"new@example.com"⟩).1 ⟨"new@example.com"⟩).1
            (Profile.mk "new@example.com").email = [row] ∧
          (googleVerify (googleVerify Db.empty ⟨"new@example.com"⟩).1 ⟨"new@example.com"⟩).2 =
            .called none (.row row) :=
  googleVerify_twice Db.empty ⟨"new@example.com"⟩ (by decide)

/-- C5 (counterexample): for the stored user `alice`, establishing a session and
resolving it yields the number 1 (her id), not a record equal to `alice`. -/
theorem session_roundtrip_not_record :
    alice ∈ aliceDb.users ∧
      (reqLogin none (.row alice)).1 = some (.num 1) ∧
      deserializeUser (.num 1) = .called none (.num 1) ∧
      deserializeUser (.num 1) ≠ .called none (.row alice) ∧
      passportSession (reqLogin none (.row alice)).1 ≠ .row alice := by
  decide

/-- C5 (amended): for every user record, establishing a session writes the record's
id as the session payload, and resolving that session yields exactly that payload:
the id of the original record (no email, no credential secret); as `req.user` it is
that id when non-zero and nothing when zero. -/
theorem session_roundtrip_id (sess : Session) (u : UserRow) :
    serializeUser (.row u) = .called none (.num u.id) ∧
      (reqLogin sess (.row u)).1 = some (.num u.id) ∧
      deserializeUser (.num u.id) = .called none (.num u.id) ∧
      passportSession (reqLogin sess (.row u)).1 =
        if u.id = 0 then .undefined else .num u.id := by
  refine ⟨rfl, by rw [reqLogin_row], rfl, ?_⟩
  rw [reqLogin_row]
  by_cases h : u.id = 0 <;>
    simp [passportSession, sessionStrategy, deserializeUser, Value.truthy, h]

/-- C6 (counterexample): with an empty `users` table, a session whose payload is the
user id 7 resolves to the identity 7, and `GET /secrets` renders the secrets view
instead of redirecting to `/login`. -/
theorem dangling_session_authenticated :
    (∀ r ∈ Db.empty.users, r.id ≠ 7) ∧
      passportSession (some (.num 7)) = .num 7 ∧
      isAuthenticated (passportSession (some (.num 7))) = true ∧
      handleGetSecrets (some (.num 7)) = .render "secrets.ejs" ∧
      handleGetSecrets (some (.num 7)) ≠ .redirect "/login" := by
  decide

/-- C6 (amended): for every session payload holding a non-zero user id with no
matching row in the `users` table, resolving the session still yields that id as
the identity (the table is not consulted), so the request is treated as
authenticated and `GET /secrets` renders the secrets view. -/
theorem dangling_session_still_resolves (db : Db) (id : Nat) (hid : id ≠ 0)
    (_hdangling : ∀ r ∈ db.users, r.id ≠ id) :
    deserializeUser (.num id) = .called none (.num id) ∧
      passportSession (some (.num id)) = .num id ∧
      isAuthenticated (passportSession (some (.num id))) = true ∧
      handleGetSecrets (some (.num id)) = .render "secrets.ejs" := by
  simp [deserializeUser, passportSession, sessionStrategy, isAuthenticated, handleGetSecrets,
    getSecrets, Value.truthy, hid]

theorem dangling_session_still_resolves_witness :
    deserializeUser (.num 7) = .called none (.num 7) ∧
      passportSession (some (.num 7)) = .num 7 ∧
      isAuthenticated (passportSession (some (.num 7))) = true ∧
      handleGetSecrets (some (.num 7)) = .render "secrets.ejs" :=
  dangling_session_still_resolves Db.empty 7 (by decide) (by decide)

/-- C7: for every profile whose email already has a row in a database with unique
emails, whatever that row's password field holds, the Google strategy's verify
callback calls back with exactly that row and leaves the database unchanged. -/
theorem googleVerify_existing (db : Db) (profile : Profile) (r : UserRow)
    (hu : db.emailsUnique) (hr : r ∈ db.users) (he : r.email = profile.email) :
    googleVerify db profile = (db, .called none (.row r)) := by
  have hone : selectUsersByEmail db profile.email = [r] := by
    have := select_of_mem db hu r hr
    rwa [he] at this
  simp [googleVerify, hone, rows0]

theorem googleVerify_existing_witness :
    googleVerify aliceDb ⟨"a@example.com"⟩ = (aliceDb, .called none (.row alice)) :=
  googleVerify_existing aliceDb ⟨"a@example.com"⟩ alice (by decide) (by decide) (by decide)

/-- C8: the edit target and the sort order are process-wide.  For any two clients
`clientA`, `clientB` and two different stored game ids `g1`, `g2`, after
`clientA: POST /edit(g1)`, `clientB: POST /edit(g2)`, the UPDATE issued for
`clientA: POST /edit-game` is the statement of line 135 with `g2` spliced in as the
game id, which is not the statement for `g1`; for form fields that hold no quote and
no backslash its code is a single UPDATE whose condition is `game_id=g2`.  And after
`clientA` posts `/sort` with value `s`, the statement issued for `clientB`'s next
`GET /` orders by `s`.  This holds whatever the database and the catalog answer. -/
theorem shared_state_leaks (sv : Services) (app : App) (clientA clientB : Value) (g1 g2 : Nat)
    (completed rating review s : String)
    (h1 : ∃ x ∈ app.games, x.game_id = g1) (h2 : ∃ x ∈ app.games, x.game_id = g2)
    (hne : g1 ≠ g2)
    (hc : plainField completed) (hr : plainField rating) (hn : plainField review) :
    (handle sv (handle sv (handle sv app clientA (.postEdit g1)).app clientB (.postEdit g2)).app
        clientA (.postEditGame completed rating review)).issued =
          [updateText completed rating review g2] ∧
      updateText completed rating review g2 ≠ updateText completed rating review g1 ∧
      sqlCode .code (updateText completed rating review g2).data =
        ("UPDATE games SET completed='', rating='', notes='' WHERE game_id=" ++
          toString g2).data ∧
      (handle sv (handle sv app clientA (.postSort s)).app clientB .getHome).issued =
        [orderByText s] := by
  have e1 := handle_postEdit_stored sv app clientA g1 h1
  have e2 := handle_postEdit_stored sv { app with activeEdit := g1 } clientB g2 h2
  rw [e1, e2]
  refine ⟨?_, ?_, sqlCode_updateText completed rating review g2 hc hr hn, ?_⟩
  · rw [handle_postEditGame_issued]
  · intro h
    exact hne (updateText_id_injective completed rating review g2 g1 h).symm
  · rw [handle_getHome_issued]
    rfl

theorem shared_state_leaks_witness :
    (handle demoServices (handle demoServices (handle demoServices (App.start demoGames)
        (.num 1) (.postEdit 11)).app (.num 2) (.postEdit 22)).app
        (.num 1) (.postEditGame "yes" "4" "good")).issued =
          [updateText "yes" "4" "good" 22] ∧
      updateText "yes" "4" "good" 22 ≠ updateText "yes" "4" "good" 11 ∧
      sqlCode .code (updateText "yes" "4" "good" 22).data =
        ("UPDATE games SET completed='', rating='', notes='' WHERE game_id=" ++
          toString 22).data ∧
      (handle demoServices (handle demoServices (App.start demoGames) (.num 1)
        (.postSort "title")).app (.num 2) .getHome).issued = [orderByText "title"] :=
  shared_state_leaks demoServices (App.start demoGames) (.num 1) (.num 2) 11 22
    "yes" "4" "good" "title" (by decide) (by decide) (by decide) (by decide) (by decide)
    (by decide)

/-- C9: in the `/register` handler a session is established only after the hash
has been computed and the row inserted.  When hashing reports an error the database
and the session are left unchanged; when hashing yields `h` and the email is new,
the steps are, in order: hash, insert of the row `(email, h)`, session for that row;
and in every run a session-establishing step is for exactly the inserted row, whose
email is the one given and whose stored password is the hash (so not the plaintext
whenever the hash differs from it). -/
theorem register_session_after_insert (bcrypt : Hasher) (db : Db) (sess : Session)
    (email password : String) :
    (∀ err, bcrypt.hash password saltRounds = .error err →
        (register bcrypt db sess email password).db = db ∧
        (register bcrypt db sess email password).session = sess ∧
        (register bcrypt db sess email password).trace = [.hashFailed]) ∧
      (∀ h, bcrypt.hash password saltRounds = .ok h → selectUsersByEmail db email = [] →
        (register bcrypt db sess email password).trace =
          [.hashComputed h, .userInserted ⟨db.nextId, email, h⟩,
            .sessionEstablished (.row ⟨db.nextId, email, h⟩) (.num db.nextId),
            .responded (.redirect "/secrets")]) ∧
      (∀ user payload,
        Event.sessionEstablished user payload ∈ (register bcrypt db sess email password).trace →
        ∃ h row, bcrypt.hash password saltRounds = .ok h ∧ user = .row row ∧
          payload = .num row.id ∧ row.email = email ∧ row.password = h ∧
          (h ≠ password → row.password ≠ password) ∧
          row ∈ (register bcrypt db sess email password).db.users ∧
          (register bcrypt db sess email password).session = some payload ∧
          (register bcrypt db sess email password).trace =
            [.hashComputed h, .userInserted row, .sessionEstablished user payload,
              .responded (.redirect "/secrets")]) := by
  refine ⟨?_, ?_, ?_⟩
  · intro err herr
    simp [register, herr]
  · intro h hh hfresh
    rw [register_fresh bcrypt db sess email password h hh hfresh]
  · intro user payload hmem
    cases hh : bcrypt.hash password saltRounds with
    | error err => simp [register, hh] at hmem
    | ok h =>
      cases hsel : selectUsersByEmail db email with
      | nil =>
        rw [register_fresh bcrypt db sess email password h hh hsel] at hmem ⊢
        simp at hmem
        obtain ⟨rfl, rfl⟩ := hmem
        exact ⟨h, ⟨db.nextId, email, h⟩, rfl, rfl, rfl, rfl, rfl, fun hne => hne,
          by simp, rfl, rfl⟩
      | cons a t => simp [register, hh, insertUser, hsel] at hmem

theorem register_session_after_insert_witness :
    ((register brokenHasher aliceDb none "b@example.com" "pw").db = aliceDb ∧
        (register brokenHasher aliceDb none "b@example.com" "pw").session = none ∧
        (register brokenHasher aliceDb none "b@example.com" "pw").trace = [.hashFailed]) ∧
      (register demoHasher aliceDb none "b@example.com" "pw").trace =
        [.hashComputed "$2b$10$pw", .userInserted ⟨2, "b@example.com", "$2b$10$pw"⟩,
          .sessionEstablished (.row ⟨2, "b@example.com", "$2b$10$pw"⟩) (.num 2),
          .responded (.redirect "/secrets")] :=
  ⟨(register_session_after_insert brokenHasher aliceDb none "b@example.com" "pw").1
      "hash failure" rfl,
    (register_session_after_insert demoHasher aliceDb none "b@example.com" "pw").2.1
      "$2b$10$pw" rfl (by decide)⟩

/-- C10: the handler of `GET /secrets` renders the secrets view if and only if the
request is authenticated, and redirects to `/login` if and only if it is not.  For a
request carrying a session, the secrets view is rendered exactly when the session
resolves to a `req.user` that is authenticated, and whenever the session resolves
the answer is the redirect to `/login` exactly when that `req.user` is not
authenticated; a request that is not authenticated is never answered by the
secrets view. -/
theorem secrets_iff_authenticated (reqUser : Value) (sess : Session) :
    (getSecrets reqUser = .render "secrets.ejs" ↔ isAuthenticated reqUser = true) ∧
      (getSecrets reqUser = .redirect "/login" ↔ isAuthenticated reqUser = false) ∧
      (handleGetSecrets sess = .render "secrets.ejs" ↔
        ∃ user, sessionStrategy sess = .ok user ∧ isAuthenticated user = true) ∧
      (∀ user, sessionStrategy sess = .ok user →
        (handleGetSecrets sess = .redirect "/login" ↔ isAuthenticated user = false)) ∧
      (isAuthenticated (passportSession sess) = false →
        handleGetSecrets sess ≠ .render "secrets.ejs") := by
  have key : ∀ v : Value,
      (getSecrets v = .render "secrets.ejs" ↔ isAuthenticated v = true) ∧
        (getSecrets v = .redirect "/login" ↔ isAuthenticated v = false) := by
    intro v
    cases hv : isAuthenticated v <;> simp [getSecrets, hv]
  refine ⟨(key reqUser).1, (key reqUser).2, ?_, ?_, ?_⟩
  · cases hs : sessionStrategy sess with
    | error e => simp [handleGetSecrets, hs]
    | ok user => simp [handleGetSecrets, hs, (key user).1]
  · intro user hs
    simp [handleGetSecrets, hs, (key user).2]
  · cases hs : sessionStrategy sess with
    | error e => simp [handleGetSecrets, hs]
    | ok user =>
      intro hu
      have hu2 : isAuthenticated user = false := by simpa [passportSession, hs] using hu
      simp [handleGetSecrets, hs, (key user).1, hu2]

theorem secrets_iff_authenticated_witness :
    (handleGetSecrets none = .redirect "/login" ↔ isAuthenticated .undefined = false) ∧
      handleGetSecrets (some (.num 0)) ≠ .render "secrets.ejs" ∧
      handleGetSecrets (some (.num 0)) =
        .serverError "Failed to deserialize user out of session" ∧
      handleGetSecrets (some (.num 7)) = .render "secrets.ejs" :=
  ⟨(secrets_iff_authenticated .undefined none).2.2.2.1 .undefined rfl,
    (secrets_iff_authenticated .undefined (some (.num 0))).2.2.2.2 (by decide),
    by decide, by decide⟩

end GameReview
